import Mathlib

/-!
Shallow embedding of the acquisition-orchestration layer of the
`supreme-fishstick-scrapper` repository and proofs about it.

Sources embedded:
- `src/src/models.py` (Platform, ScrapingStrategy, post/job records)
- `src/src/database.py` (DatabaseManager: save_post, save_job, update_job_status,
  get_job_status; `id` / `job_id` are primary keys, inserts are plain INSERTs)
- `src/src/scrapers/base.py` (the tenacity retry decorator on `_make_request`,
  `run_scraping_job`, `_matches_keywords`)
- `src/src/scrapers/manager.py` (`EnhancedScraperManager`: strategy registry,
  `scrape_with_fallback`, `scrape_search_with_fallback`, job API; note that
  Python keeps only the LAST definition when a class body defines a method
  twice, so the effective `create_job` / `stop_job` / `get_job_status` are the
  later duplicates)
- `src/src/scrapers/reddit_feed_scraper.py` (`RedditFeedScraper.scrape_search`,
  a generator that returns before yielding anything)

Machine integers do not occur on the modelled paths; datetimes are modelled as
opaque `Nat` timestamps supplied by the caller, and string formatting of error
messages is modelled by a total rendering function.
-/

namespace Scrapper

/-- `Platform` enum from models.py. -/
inductive Platform
  | reddit
  | twitter
deriving DecidableEq, Repr

/-- `ScrapingStrategy` enum from models.py. -/
inductive ScrapingStrategy
  | api
  | web
  | browser
  | feed
  | alternative
deriving DecidableEq, Repr

/--
Exception taxonomy for adapter-level failures, as the code distinguishes them.
`clientResponseError` models `aiohttp.ClientResponseError` (raised by
`response.raise_for_status()` on HTTP error statuses such as 404 or 401);
in aiohttp it is a subclass of `aiohttp.ClientError`.  `clientConnectionError`
models the other `aiohttp.ClientError` members (connection level failures).
`timeoutError` models `asyncio.TimeoutError`.  `otherError` models any other
`Exception` (e.g. parse failures), carrying its message.
-/
inductive AdapterError
  | clientResponseError (status : Nat)
  | clientConnectionError
  | timeoutError
  | otherError (msg : String)
deriving DecidableEq, Repr

/-- Rendering of an adapter error, standing in for Python `str(e)`. -/
def AdapterError.render : AdapterError → String
  | .clientResponseError s => "HTTP error " ++ toString s
  | .clientConnectionError => "connection error"
  | .timeoutError => "timeout"
  | .otherError m => m

/--
The retry predicate of the tenacity decorator on `BaseScraper._make_request`:
`retry_if_exception_type((aiohttp.ClientError, asyncio.TimeoutError))`.
Since `aiohttp.ClientResponseError` is a subclass of `aiohttp.ClientError`,
HTTP status errors are retryable under this predicate.
-/
def isRetryableError : AdapterError → Bool
  | .clientResponseError _ => true
  | .clientConnectionError => true
  | .timeoutError => true
  | .otherError _ => false

/-- Outcome of running an operation under the tenacity retry decorator.
Each constructor records the number of attempts performed. -/
inductive RetryOutcome (α : Type)
  | ok (value : α) (attempts : Nat)
  | raised (e : AdapterError) (attempts : Nat)
  | retryExhausted (last : AdapterError) (attempts : Nat)
deriving DecidableEq, Repr

/--
One step of the tenacity loop: `remaining` is the number of further attempts
the `stop_after_attempt` policy still allows, `attempt` is the 1-based index
of the current attempt.  A failure whose exception does not satisfy the retry
predicate is re-raised as-is; a retryable failure is retried until the stop
condition triggers, after which tenacity raises `RetryError` (modelled as
`retryExhausted`, carrying the last error).
-/
def retryGo (op : Nat → Except AdapterError α) : Nat → Nat → RetryOutcome α
  | remaining, attempt =>
    match op attempt with
    | .ok v => .ok v attempt
    | .error e =>
      if isRetryableError e then
        match remaining with
        | 0 => .retryExhausted e attempt
        | r + 1 => retryGo op r (attempt + 1)
      else .raised e attempt

/--
`BaseScraper._make_request`'s retry wrapper:
`@retry(stop=stop_after_attempt(3), wait=wait_exponential(...),
retry=retry_if_exception_type((aiohttp.ClientError, asyncio.TimeoutError)))`.
At most 3 attempts are performed (attempt numbers 1, 2, 3); backoff delays do
not influence the outcome and are not modelled.
-/
def makeRequestRetry (op : Nat → Except AdapterError α) : RetryOutcome α :=
  retryGo op 2 1

/-- Number of attempts an outcome records. -/
def RetryOutcome.attemptsUsed : RetryOutcome α → Nat
  | .ok _ n => n
  | .raised _ n => n
  | .retryExhausted _ n => n

/-!
## Posts, jobs and the database (models.py, database.py)

The fields carried here are the ones the orchestration layer reads or writes;
the remaining columns of `ScrapedPostDB` are opaque payload grouped into
`extra`.  Datetimes are opaque `Nat` timestamps.
-/

/-- A scraped post (`ScrapedPost` / row of `scraped_posts`); `id` is the
primary key of the table. -/
structure Post where
  id : String
  platform : Platform
  author : String
  content : String
  url : String
  extra : String := ""
deriving DecidableEq, Repr

/-- A job record (`ScrapingJob` pydantic model merged with its persisted
`scraping_jobs` row; the pydantic model's fields are a subset and the row adds
the result columns, which default as in `ScrapingJobDB`). -/
structure JobRecord where
  job_id : String
  platform : Platform
  target : String
  max_posts : Nat
  include_comments : Bool
  keywords : List String
  status : String := "pending"
  posts_scraped : Nat := 0
  comments_scraped : Nat := 0
  errors : List String := []
  started_at : Option Nat := none
  completed_at : Option Nat := none
  success : Bool := false
deriving DecidableEq, Repr

/-- Database error taxonomy: inserting a duplicate primary key raises an
integrity error in SQLAlchemy. -/
inductive DBError
  | integrityError
deriving DecidableEq, Repr

def DBError.render : DBError → String
  | .integrityError => "UNIQUE constraint failed"

/-- The two tables the orchestration layer touches. -/
structure DB where
  posts : List Post := []
  jobs : List JobRecord := []
deriving DecidableEq, Repr

/-- The ids currently present in `scraped_posts`. -/
def DB.postIds (db : DB) : List String := db.posts.map (·.id)

/-- The job ids currently present in `scraping_jobs`. -/
def DB.jobIds (db : DB) : List String := db.jobs.map (·.job_id)

/--
`DatabaseManager.save_post`: a plain `db.add` + `db.commit` INSERT.  `id` is
the primary key of `scraped_posts`, so inserting a row whose id is already
present fails with an integrity error and leaves the table unchanged
(the failed transaction is not applied); otherwise the row is appended.
-/
def savePost (db : DB) (p : Post) : Except DBError DB :=
  if p.id ∈ db.postIds then .error .integrityError
  else .ok { db with posts := db.posts ++ [p] }

/-- `DatabaseManager.save_job`: same INSERT shape, keyed on `job_id`. -/
def saveJob (db : DB) (j : JobRecord) : Except DBError DB :=
  if j.job_id ∈ db.jobIds then .error .integrityError
  else .ok { db with jobs := db.jobs ++ [j] }

/-- The keyword-argument bag accepted by `update_job_status`: a field is
updated only when the corresponding argument is passed. -/
structure JobUpdate where
  started_at : Option Nat := none
  completed_at : Option Nat := none
  posts_scraped : Option Nat := none
  comments_scraped : Option Nat := none
  success : Option Bool := none
  errors : Option (List String) := none
deriving Repr

/-- Apply `status` and the provided kwargs to one row (the `setattr` loop of
`update_job_status`; every key used by the callers is a real column). -/
def applyJobUpdate (j : JobRecord) (status : String) (u : JobUpdate) : JobRecord :=
  { j with
    status := status
    started_at := if u.started_at.isSome then u.started_at else j.started_at
    completed_at := if u.completed_at.isSome then u.completed_at else j.completed_at
    posts_scraped := u.posts_scraped.getD j.posts_scraped
    comments_scraped := u.comments_scraped.getD j.comments_scraped
    success := u.success.getD j.success
    errors := u.errors.getD j.errors }

/--
`DatabaseManager.update_job_status`: looks the row up by `job_id` and, when
found, sets `status` plus the provided kwargs; a missing job id is a silent
no-op.  `job_id` is the primary key, so at most one row matches.
-/
def updateJobStatus (db : DB) (jobId : String) (status : String) (u : JobUpdate) : DB :=
  { db with
    jobs := db.jobs.map fun j => if j.job_id = jobId then applyJobUpdate j status u else j }

/-- `DatabaseManager.get_job_status`: fetch the row by primary key. -/
def getJobRecord (db : DB) (jobId : String) : Option JobRecord :=
  db.jobs.find? fun j => decide (j.job_id = jobId)

/-!
## Keyword matching (base.py `_matches_keywords`)

Python does `keyword.lower() in content.lower()`.  ASCII lowercasing and
substring containment are written out explicitly; `"" in s` is true in Python
and `listContainsSub [] l = true` accordingly.
-/

/-- ASCII lowercase of one character (`str.lower` on the inputs in play). -/
def charLower (c : Char) : Char :=
  if 65 ≤ c.toNat ∧ c.toNat ≤ 90 then Char.ofNat (c.toNat + 32) else c

/-- Lowercase a string character-wise. -/
def strLower (s : String) : List Char := s.data.map charLower

/-- Does `hay` start with `needle`? -/
def listStartsWith : List Char → List Char → Bool
  | [], _ => true
  | _ :: _, [] => false
  | a :: as, b :: bs => a == b && listStartsWith as bs

/-- Substring containment on character lists (Python `needle in hay`). -/
def listContainsSub (needle : List Char) : List Char → Bool
  | [] => needle.isEmpty
  | b :: bs => listStartsWith needle (b :: bs) || listContainsSub needle bs

/-- `BaseScraper._matches_keywords`: OR over the keywords, each matched
case-insensitively as a substring of the content. -/
def matchesKeywords (content : String) (keywords : List String) : Bool :=
  keywords.any fun k => listContainsSub (strLower k) (strLower content)

/-!
## Adapters and the strategy registry (base.py subclasses, manager.py)

An async generator either yields a finite sequence of items and finishes, or
yields some items and then raises: `GenResult` records both, since a consumer
that drains the generator processes the yielded prefix before observing the
raise.  `hasScrapeSearch` models `hasattr(scraper, 'scrape_search')`, the test
`scrape_search_with_fallback` uses for search capability.
-/

/-- The run of one async generator: the items it yields, then an optional
exception it raises after the last yield. -/
structure GenResult where
  yields : List Post
  raised : Option AdapterError
deriving Repr

/-- One scraper instance as the manager consumes it. -/
structure Adapter where
  scrapePosts : String → Nat → GenResult
  hasScrapeSearch : Bool
  scrapeSearch : String → Nat → GenResult
  scrapeComments : String → Nat → GenResult

/--
Embedding of `RedditFeedScraper.scrape_search` (reddit_feed_scraper.py,
lines 87-98): the method logs a warning and executes `return` before the
unreachable `yield`, so the generator yields nothing and raises nothing.
-/
def redditFeedScrapeSearch (_query : String) (_maxPosts : Nat) : GenResult :=
  { yields := [], raised := none }

/--
The `RedditFeedScraper` instance as the orchestrator sees it.  Its
`scrape_posts` fetches the network, so the posts it would yield are a
parameter; the class *defines* `scrape_search` (hence
`hasattr(scraper, 'scrape_search')` is true) and that method yields nothing;
`scrape_comments` likewise returns before yielding.
-/
def redditFeedScraper (fetchPosts : String → Nat → GenResult) : Adapter :=
  { scrapePosts := fetchPosts
    hasScrapeSearch := true
    scrapeSearch := redditFeedScrapeSearch
    scrapeComments := fun _ _ => { yields := [], raised := none } }

/-- Per-platform registry: the insertion-ordered dict
`self.strategies[platform] : strategy -> scraper`. -/
def StrategyReg := List (ScrapingStrategy × Adapter)

/-- The whole `self.strategies` dict: `platform -> (strategy -> scraper)`. -/
def StratMap := List (Platform × StrategyReg)

/-- Dict lookup `self.strategies[platform]` (`platform in self.strategies`
is `isSome` of this). -/
def lookupPlatform (m : StratMap) (p : Platform) : Option StrategyReg :=
  (m.find? fun q => decide (q.1 = p)).map (·.2)

/-- Dict lookup `self.strategies[platform][strategy]`. -/
def lookupStrategy (reg : StrategyReg) (s : ScrapingStrategy) : Option Adapter :=
  (reg.find? fun q => decide (q.1 = s)).map (·.2)

/-- `list(self.strategies[platform].keys())`, or `[]` when the platform is
absent (manager.get_available_strategies's behaviour). -/
def availableStrategies (m : StratMap) (p : Platform) : List ScrapingStrategy :=
  match lookupPlatform m p with
  | none => []
  | some reg => reg.map (·.1)

/-- Errors raised by the fallback orchestrator.  The first three are the
`ValueError`s of `scrape_with_fallback` / `scrape_search_with_fallback`; the
last is the final generic `Exception`, carrying `last_error`. -/
inductive FallbackError
  | noScrapersForPlatform
  | noWorkingScrapers
  | noStrategiesAvailable
  | noSearchCapableScrapers
  | allStrategiesFailed (last : Option AdapterError)
deriving DecidableEq, Repr

/-- The fixed default fallback order of `scrape_with_fallback`:
`[ScrapingStrategy.WEB, ScrapingStrategy.FEED, ScrapingStrategy.API]`. -/
def defaultStrategyOrder : List ScrapingStrategy :=
  [.web, .feed, .api]

/--
The try-order computation of `scrape_with_fallback` (manager.py 117-130),
kept in the source's loop-and-append shape: when a preferred strategy is given
and available it is placed first and the loop appends the other available
strategies in default order; otherwise the loop filters the default order by
availability.
-/
def strategiesToTry (avail : List ScrapingStrategy) (preferred : Option ScrapingStrategy) :
    List ScrapingStrategy :=
  match preferred with
  | some p =>
    if p ∈ avail then
      defaultStrategyOrder.foldl
        (fun acc s => if s ≠ p ∧ s ∈ avail then acc ++ [s] else acc) [p]
    else
      defaultStrategyOrder.foldl (fun acc s => if s ∈ avail then acc ++ [s] else acc) []
  | none =>
    defaultStrategyOrder.foldl (fun acc s => if s ∈ avail then acc ++ [s] else acc) []

/--
The drained outcome of one strategy attempt inside the fallback loop: the dict
index and the full drain of `scraper.scrape_posts` happen inside the `try`,
so a raise mid-generator discards the partial list and surfaces as the
attempt's error (a dict miss would be a `KeyError`, also caught; it is
unreachable because the loop only visits keys of the dict).
-/
def attemptOutcome (reg : StrategyReg) (target : String) (maxPosts : Nat)
    (s : ScrapingStrategy) : Except AdapterError (List Post) :=
  match lookupStrategy reg s with
  | none => .error (.otherError "KeyError")
  | some ad =>
    let g := ad.scrapePosts target maxPosts
    match g.raised with
    | some e => .error e
    | none => .ok g.yields

/-- The fallback loop (manager.py 135-158): first non-empty drain wins, a
raising attempt updates `last_error` and the loop continues, an empty drain
continues without touching `last_error`; exhaustion raises the final
`Exception` carrying `last_error`. -/
def tryStrategies (reg : StrategyReg) (target : String) (maxPosts : Nat) :
    List ScrapingStrategy → Option AdapterError → Except FallbackError (List Post)
  | [], lastError => .error (.allStrategiesFailed lastError)
  | s :: rest, lastError =>
    match attemptOutcome reg target maxPosts s with
    | .error e => tryStrategies reg target maxPosts rest (some e)
    | .ok posts =>
      if posts.isEmpty then tryStrategies reg target maxPosts rest lastError
      else .ok posts

/-- `EnhancedScraperManager.scrape_with_fallback` (manager.py 91-158). -/
def scrapeWithFallback (strategies : StratMap) (platform : Platform) (target : String)
    (maxPosts : Nat) (preferred : Option ScrapingStrategy) :
    Except FallbackError (List Post) :=
  match lookupPlatform strategies platform with
  | none => .error .noScrapersForPlatform
  | some reg =>
    let avail := reg.map (·.1)
    if avail.isEmpty then .error .noWorkingScrapers
    else
      let toTry := strategiesToTry avail preferred
      if toTry.isEmpty then .error .noStrategiesAvailable
      else tryStrategies reg target maxPosts toTry none

/-- `hasattr(scraper, 'scrape_search')` for the adapter registered under `s`
(every `s` the caller passes is a key of `reg`). -/
def hasSearchAttr (reg : StrategyReg) (s : ScrapingStrategy) : Bool :=
  match lookupStrategy reg s with
  | none => false
  | some ad => ad.hasScrapeSearch

/-- `search_capable_strategies` of `scrape_search_with_fallback` (manager.py
174-179): the available strategies, in dict order, whose scraper has a
`scrape_search` attribute; `[]` when the platform is absent. -/
def searchCapableStrategies (strategies : StratMap) (platform : Platform) :
    List ScrapingStrategy :=
  match lookupPlatform strategies platform with
  | none => []
  | some reg => (reg.map (·.1)).filter fun s => hasSearchAttr reg s

/-- One search attempt (drain of `scraper.scrape_search` inside the `try`). -/
def attemptSearchOutcome (reg : StrategyReg) (query : String) (maxPosts : Nat)
    (s : ScrapingStrategy) : Except AdapterError (List Post) :=
  match lookupStrategy reg s with
  | none => .error (.otherError "KeyError")
  | some ad =>
    let g := ad.scrapeSearch query maxPosts
    match g.raised with
    | some e => .error e
    | none => .ok g.yields

/-- The search fallback loop (manager.py 193-216), same shape as
`tryStrategies`. -/
def trySearchStrategies (reg : StrategyReg) (query : String) (maxPosts : Nat) :
    List ScrapingStrategy → Option AdapterError → Except FallbackError (List Post)
  | [], lastError => .error (.allStrategiesFailed lastError)
  | s :: rest, lastError =>
    match attemptSearchOutcome reg query maxPosts s with
    | .error e => trySearchStrategies reg query maxPosts rest (some e)
    | .ok posts =>
      if posts.isEmpty then trySearchStrategies reg query maxPosts rest lastError
      else .ok posts

/--
`EnhancedScraperManager.scrape_search_with_fallback` (manager.py 160-216).
Note the try-order here orders fallbacks by the `search_capable_strategies`
list itself (not by the default order used in `scrape_with_fallback`).
-/
def scrapeSearchWithFallback (strategies : StratMap) (platform : Platform)
    (query : String) (maxPosts : Nat) (preferred : Option ScrapingStrategy) :
    Except FallbackError (List Post) :=
  match lookupPlatform strategies platform with
  | none => .error .noScrapersForPlatform
  | some reg =>
    let searchCapable := (reg.map (·.1)).filter fun s => hasSearchAttr reg s
    if searchCapable.isEmpty then .error .noSearchCapableScrapers
    else
      let toTry :=
        match preferred with
        | some p =>
          if p ∈ searchCapable then
            p :: searchCapable.filter (fun s => decide (s ≠ p))
          else searchCapable
        | none => searchCapable
      trySearchStrategies reg query maxPosts toTry none

/-!
## Manager state and the job API (manager.py)

`EnhancedScraperManager.__init__` sets exactly `self.strategies = {}` and
`self.active_jobs = {}`.  The class also *reads* `self.scrapers` (in
`start_job` and `health_check`) but no method ever assigns it, so that
attribute never exists on an `EnhancedScraperManager`; it is modelled as an
`Option` that `__init__` leaves `none`, and reading it while `none` raises
`AttributeError`.

The active-job table `self.active_jobs : jobId -> asyncio.Task` is modelled by
the list of its keys: the stored task object is only ever cancelled/awaited,
and those effects are part of the `stop_job` embedding.

The class body of `EnhancedScraperManager` defines `create_job`, `stop_job`,
`get_job_status`, `list_active_jobs` and `scrape_reddit_subreddit` twice;
Python keeps the later definition of each, so the embeddings below follow the
later block (manager.py 396-559).  The earlier `create_job` (246-277) and its
task body `_run_job_with_fallback` (279-324) are unreachable; the earlier
runner is still embedded further below because it is the only code that
removes a finished job from the table.
-/

/-- Python exceptions escaping a manager method. -/
inductive PyError
  | attributeError (attr : String)
  | dbError (e : DBError)
deriving DecidableEq, Repr

/-- The mutable attributes of `EnhancedScraperManager`. -/
structure ManagerState where
  strategies : StratMap
  active_jobs : List String
  scrapers : Option (List (Platform × Adapter))

/-- `EnhancedScraperManager.__init__`. -/
def initManager : ManagerState :=
  { strategies := [], active_jobs := [], scrapers := none }

/-- `job_id in self.active_jobs`. -/
def isActive (st : ManagerState) (jobId : String) : Bool :=
  st.active_jobs.contains jobId

/-- `del self.active_jobs[job_id]` (keys are unique, as in a dict). -/
def removeActive (st : ManagerState) (jobId : String) : ManagerState :=
  { st with active_jobs := st.active_jobs.filter fun k => decide (k ≠ jobId) }

/--
The effective `EnhancedScraperManager.create_job` (manager.py 396-420, the
later of the two definitions, which shadows the earlier auto-starting one):
build a pending `ScrapingJob`, persist it via `save_job`, log, and return the
job id.  `keywords or []` is the `getD`.  The freshly generated `uuid4` string
is a parameter.  No task is created and `self.active_jobs` is not touched.
-/
def createJob (st : ManagerState) (db : DB) (jobId : String) (platform : Platform)
    (target : String) (maxPosts : Nat) (includeComments : Bool)
    (keywords : Option (List String)) :
    Except PyError (String × ManagerState × DB) :=
  let job : JobRecord :=
    { job_id := jobId
      platform := platform
      target := target
      max_posts := maxPosts
      include_comments := includeComments
      keywords := keywords.getD [] }
  match saveJob db job with
  | .error e => .error (.dbError e)
  | .ok db' => .ok (jobId, st, db')

/--
`EnhancedScraperManager.start_job` (manager.py 422-454): refuse ids already in
the active table, load the job record, then fetch a scraper from
`self.scrapers` — an attribute `__init__` never creates, so reaching that line
raises `AttributeError`.  Were the attribute present, a missing platform
returns false and otherwise `asyncio.create_task(scraper.run_scraping_job(job))`
is stored in the active table and true is returned.
-/
def startJob (st : ManagerState) (db : DB) (jobId : String) :
    Except PyError (Bool × ManagerState) :=
  if isActive st jobId then .ok (false, st)
  else
    match getJobRecord db jobId with
    | none => .ok (false, st)
    | some jd =>
      match st.scrapers with
      | none => .error (.attributeError "scrapers")
      | some scrapers =>
        match (scrapers.find? fun q => decide (q.1 = jd.platform)).map (·.2) with
        | none => .ok (false, st)
        | some _ =>
          .ok (true, { st with active_jobs := st.active_jobs ++ [jobId] })

/--
`EnhancedScraperManager.stop_job` (manager.py 456-476; the two definitions in
the class body are identical): an id not in the active table logs a warning
and returns false with nothing touched; otherwise the task is cancelled, the
`await` settles (its `CancelledError` is swallowed, and the cancelled task
performs no further effects), the entry is deleted, and the persisted job is
marked `cancelled` with `completed_at = now`.
-/
def stopJob (st : ManagerState) (db : DB) (jobId : String) (now : Nat) :
    Bool × ManagerState × DB :=
  if isActive st jobId then
    let st' := removeActive st jobId
    let db' := updateJobStatus db jobId "cancelled" { completed_at := some now }
    (true, st', db')
  else (false, st, db)

/-- The `status` / `is_running` pair of the dict built by
`EnhancedScraperManager.get_job_status` (manager.py 478-499): the persisted
row merged with `is_running = job_id in self.active_jobs`. -/
def getJobStatusView (st : ManagerState) (db : DB) (jobId : String) :
    Option (String × Bool) :=
  (getJobRecord db jobId).map fun j => (j.status, isActive st jobId)

/-!
## The job task body `BaseScraper.run_scraping_job` (base.py 118-196)

The per-post `try` swallows save failures as recorded errors; a keyword
mismatch `continue`s before any effect; comments are drained inside the same
per-post `try` (so a comment-generator raise is recorded as that post's
processing error after the already-yielded comments were handled); a raise of
the post generator itself escapes the `for` into the outer `except`, failing
the job after the yielded prefix was processed.  The method never touches the
manager's active-job table (it has no reference to the manager at all).
-/

/-- Accumulator of the post-processing loop: database, posts saved, comments
saved, recorded error strings. -/
structure LoopAcc where
  db : DB
  postsScraped : Nat
  commentsScraped : Nat
  errors : List String
deriving Repr

/-- The inner comment loop (base.py 149-156): save each yielded comment,
counting successes and recording save failures. -/
def saveCommentsLoop (comments : List Post) (db : DB) (count : Nat)
    (errs : List String) : DB × Nat × List String :=
  match comments with
  | [] => (db, count, errs)
  | c :: rest =>
    match savePost db c with
    | .ok db' => saveCommentsLoop rest db' (count + 1) errs
    | .error e =>
      saveCommentsLoop rest db count (errs ++ ["Comment save error: " ++ e.render])

/-- Processing of one yielded post (the body of the `async for`, base.py
136-163). -/
def processPost (ad : Adapter) (job : JobRecord) (p : Post) (acc : LoopAcc) : LoopAcc :=
  if !job.keywords.isEmpty && !matchesKeywords p.content job.keywords then acc
  else
    match savePost acc.db p with
    | .error e =>
      { acc with errors := acc.errors ++ ["Post processing error: " ++ e.render] }
    | .ok db1 =>
      if job.include_comments then
        let g := ad.scrapeComments p.id 100
        let (db2, cs, errs2) := saveCommentsLoop g.yields db1 acc.commentsScraped acc.errors
        match g.raised with
        | some e =>
          { db := db2, postsScraped := acc.postsScraped + 1, commentsScraped := cs,
            errors := errs2 ++ ["Post processing error: " ++ e.render] }
        | none =>
          { db := db2, postsScraped := acc.postsScraped + 1, commentsScraped := cs,
            errors := errs2 }
      else { acc with db := db1, postsScraped := acc.postsScraped + 1 }

/-- The drain of the post generator's yielded prefix. -/
def processPosts (ad : Adapter) (job : JobRecord) : List Post → LoopAcc → LoopAcc
  | [], acc => acc
  | p :: rest, acc => processPosts ad job rest (processPost ad job p acc)

/-- The fields of `ScrapingResult` that the job run produces. -/
structure ResultRec where
  job_id : String
  posts_scraped : Nat
  comments_scraped : Nat
  errors : List String
  started_at : Nat
  completed_at : Nat
  success : Bool
deriving DecidableEq, Repr

/--
`BaseScraper.run_scraping_job`: mark the job running, drain and process
`scrape_posts`, then either record completion (counts, `success=True`) or —
when the generator raised — record failure with the error appended; on the
failure path the result's counts stay at their initial zeros and `success`
stays false, and the database update passes only `completed_at` and `errors`.
`startT`/`endT` stand for the two `datetime.utcnow()` readings.
-/
def runScrapingJob (ad : Adapter) (job : JobRecord) (startT endT : Nat) (db : DB) :
    DB × ResultRec :=
  let db0 := updateJobStatus db job.job_id "running" { started_at := some startT }
  let g := ad.scrapePosts job.target job.max_posts
  let acc := processPosts ad job g.yields
    { db := db0, postsScraped := 0, commentsScraped := 0, errors := [] }
  match g.raised with
  | none =>
    let db2 := updateJobStatus acc.db job.job_id "completed"
      { posts_scraped := some acc.postsScraped
        comments_scraped := some acc.commentsScraped
        completed_at := some endT
        success := some true
        errors := some acc.errors }
    (db2,
      { job_id := job.job_id, posts_scraped := acc.postsScraped,
        comments_scraped := acc.commentsScraped, errors := acc.errors,
        started_at := startT, completed_at := endT, success := true })
  | some e =>
    let errs := acc.errors ++ ["Job failed: " ++ e.render]
    let db2 := updateJobStatus acc.db job.job_id "failed"
      { completed_at := some endT, errors := some errs }
    (db2,
      { job_id := job.job_id, posts_scraped := 0, comments_scraped := 0,
        errors := errs, started_at := startT, completed_at := endT,
        success := false })

/--
The composite behaviour behind claim C4's lifecycle: a successful `start_job`
registration (`self.active_jobs[job_id] = task`) followed by the spawned
task's complete run of `BaseScraper.run_scraping_job`.  The task body updates
only the database; no code on this path deletes the table entry afterwards
(the only deletions in the class are in `stop_job` and in the unreachable
`_run_job_with_fallback`).
-/
def startJobPathExecution (st : ManagerState) (ad : Adapter) (job : JobRecord)
    (startT endT : Nat) (db : DB) : ManagerState × DB × ResultRec :=
  let st1 := { st with active_jobs := st.active_jobs ++ [job.job_id] }
  let (db', r) := runScrapingJob ad job startT endT db
  (st1, db', r)

/-!
## State-threaded `scrape_with_fallback` (for the frame property)

Claim C10 is about the instance attributes across a call, so here the whole
method is embedded once more with the manager state threaded through every
step, each dict read going through the state current at that step and every
exit point returning the state it holds at that moment.  Every statement of
manager.py 91-158 is an expression or a read — the method contains no
assignment to `self.strategies` or `self.active_jobs` (and the scrapers it
calls receive no reference to the manager), which is what the threading makes
explicit.
-/

/-- The fallback loop with the manager state threaded through each iteration
(each iteration re-reads `self.strategies[platform][strategy]` from the
current state). -/
def tryStrategiesSt (st : ManagerState) (platform : Platform) (target : String)
    (maxPosts : Nat) :
    List ScrapingStrategy → Option AdapterError →
    ManagerState × Except FallbackError (List Post)
  | [], lastError => (st, .error (.allStrategiesFailed lastError))
  | s :: rest, lastError =>
    match lookupPlatform st.strategies platform with
    | none => tryStrategiesSt st platform target maxPosts rest
        (some (.otherError "KeyError"))
    | some reg =>
      match attemptOutcome reg target maxPosts s with
      | .error e => tryStrategiesSt st platform target maxPosts rest (some e)
      | .ok posts =>
        if posts.isEmpty then tryStrategiesSt st platform target maxPosts rest lastError
        else (st, .ok posts)

/-- `scrape_with_fallback` acting on the manager instance. -/
def scrapeWithFallbackSt (st : ManagerState) (platform : Platform) (target : String)
    (maxPosts : Nat) (preferred : Option ScrapingStrategy) :
    ManagerState × Except FallbackError (List Post) :=
  match lookupPlatform st.strategies platform with
  | none => (st, .error .noScrapersForPlatform)
  | some reg =>
    let avail := reg.map (·.1)
    if avail.isEmpty then (st, .error .noWorkingScrapers)
    else
      let toTry := strategiesToTry avail preferred
      if toTry.isEmpty then (st, .error .noStrategiesAvailable)
      else tryStrategiesSt st platform target maxPosts toTry none

/-!
## Specification-side definitions

`specTryOrder` renders the try-order exactly as the spec words it (preferred
first when available, then the remaining available strategies in the fixed
default order; otherwise the default order filtered to availability), to be
compared with the loop-shaped `strategiesToTry` from the source.
`firstNonEmptyAttempt` / `lastErrorThrough` name the two quantities the
fallback contract speaks about: the drained list of the first strategy in
try-order producing at least one post, and the last error observed while
walking the try-order.
-/

/-- The try-order as the specification describes it. -/
def specTryOrder (avail : List ScrapingStrategy) (preferred : Option ScrapingStrategy) :
    List ScrapingStrategy :=
  match preferred with
  | some p =>
    if p ∈ avail then
      p :: defaultStrategyOrder.filter fun s => decide (s ≠ p ∧ s ∈ avail)
    else defaultStrategyOrder.filter fun s => decide (s ∈ avail)
  | none => defaultStrategyOrder.filter fun s => decide (s ∈ avail)

/-- The drained result of the first strategy in the given order whose attempt
yields at least one post (`none` when no strategy does). -/
def firstNonEmptyAttempt (reg : StrategyReg) (target : String) (maxPosts : Nat) :
    List ScrapingStrategy → Option (List Post)
  | [] => none
  | s :: rest =>
    match attemptOutcome reg target maxPosts s with
    | .error _ => firstNonEmptyAttempt reg target maxPosts rest
    | .ok posts =>
      if posts.isEmpty then firstNonEmptyAttempt reg target maxPosts rest
      else some posts

/-- The value of `last_error` after walking the whole order: each raising
attempt overwrites it, empty successes leave it alone. -/
def lastErrorThrough (reg : StrategyReg) (target : String) (maxPosts : Nat) :
    List ScrapingStrategy → Option AdapterError → Option AdapterError
  | [], lastError => lastError
  | s :: rest, lastError =>
    match attemptOutcome reg target maxPosts s with
    | .error e => lastErrorThrough reg target maxPosts rest (some e)
    | .ok _ => lastErrorThrough reg target maxPosts rest lastError

/-!
## Concrete fixtures

Stub adapters and concrete records used to evaluate the theorems on explicit
inputs (adapter stubs play the role of the test doubles the spec's testable
properties describe).
-/

/-- A stub adapter whose post generator yields a fixed list and which, like a
class not defining `scrape_search`, has no search attribute. -/
def stubAdapter (posts : List Post) : Adapter :=
  { scrapePosts := fun _ _ => { yields := posts, raised := none }
    hasScrapeSearch := false
    scrapeSearch := fun _ _ => { yields := [], raised := none }
    scrapeComments := fun _ _ => { yields := [], raised := none } }

def pRust : Post :=
  { id := "r1", platform := .reddit, author := "alice",
    content := "I love RuSt lang", url := "u1" }

def pPy : Post :=
  { id := "r2", platform := .reddit, author := "bob",
    content := "python only", url := "u2" }

/-- Registry with a WEB adapter that drains empty and a FEED adapter that
yields one post. -/
def webFeedStrategies : StratMap :=
  [(Platform.reddit,
    [(ScrapingStrategy.web, stubAdapter []), (ScrapingStrategy.feed, stubAdapter [pRust])])]

/-- Registry where only the RSS feed scraper is available. -/
def feedOnlyStrategies : StratMap :=
  [(Platform.reddit,
    [(ScrapingStrategy.feed, redditFeedScraper fun _ _ => { yields := [], raised := none })])]

/-- Registry with one adapter that defines no `scrape_search` attribute. -/
def webOnlyNoSearch : StratMap :=
  [(Platform.reddit, [(ScrapingStrategy.web, stubAdapter [])])]

def c4Job : JobRecord :=
  { job_id := "j4", platform := .reddit, target := "rust", max_posts := 5,
    include_comments := false, keywords := [] }

def c4DB : DB := { posts := [], jobs := [c4Job] }

def c5Job : JobRecord :=
  { job_id := "j5", platform := .reddit, target := "rust", max_posts := 5,
    include_comments := false, keywords := [], status := "running" }

def c5DB : DB := { posts := [], jobs := [c5Job] }

def c5State : ManagerState :=
  { strategies := [], active_jobs := ["j5"], scrapers := none }

def c7Job : JobRecord :=
  { job_id := "j7", platform := .reddit, target := "prog", max_posts := 10,
    include_comments := false, keywords := ["rust"] }

def c7Adapter : Adapter :=
  { scrapePosts := fun _ _ => { yields := [pRust, pPy], raised := none }
    hasScrapeSearch := false
    scrapeSearch := fun _ _ => { yields := [], raised := none }
    scrapeComments := fun _ _ => { yields := [], raised := none } }

def c8Post : Post :=
  { id := "abc", platform := .reddit, author := "alice", content := "hello", url := "u" }

/-!
## Helper lemmas
-/

theorem foldl_ite_append {α : Type} (P : α → Prop) [DecidablePred P] :
    ∀ (l acc : List α),
      l.foldl (fun a s => if P s then a ++ [s] else a) acc
        = acc ++ l.filter fun s => decide (P s)
  | [], _ => by simp
  | x :: l, acc => by
    simp only [List.foldl_cons, List.filter_cons]
    by_cases h : P x
    · simp [h, foldl_ite_append P l (acc ++ [x])]
    · simp [h, foldl_ite_append P l acc]

/-- The loop-shaped try-order computation equals its filter form. -/
theorem strategiesToTry_eq_filter (avail : List ScrapingStrategy)
    (preferred : Option ScrapingStrategy) :
    strategiesToTry avail preferred = specTryOrder avail preferred := by
  cases preferred with
  | none => simp [strategiesToTry, specTryOrder, foldl_ite_append fun s => s ∈ avail]
  | some p =>
    by_cases hp : p ∈ avail
    · simp [strategiesToTry, specTryOrder, hp,
        foldl_ite_append fun s => s ≠ p ∧ s ∈ avail]
    · simp [strategiesToTry, specTryOrder, hp, foldl_ite_append fun s => s ∈ avail]

/-- With every available strategy drawn from the default order (which is all
`_init_reddit_scrapers` ever registers), a non-empty availability set gives a
non-empty try-order. -/
theorem strategiesToTry_ne_nil (avail : List ScrapingStrategy)
    (preferred : Option ScrapingStrategy)
    (hsub : ∀ s ∈ avail, s ∈ defaultStrategyOrder) (hne : avail ≠ []) :
    strategiesToTry avail preferred ≠ [] := by
  rw [strategiesToTry_eq_filter]
  obtain ⟨s, hs⟩ := List.exists_mem_of_ne_nil avail hne
  have hmemfil : s ∈ defaultStrategyOrder.filter fun x => decide (x ∈ avail) :=
    List.mem_filter.mpr ⟨hsub s hs, by simpa using hs⟩
  cases preferred with
  | none => exact List.ne_nil_of_mem hmemfil
  | some p =>
    by_cases hp : p ∈ avail
    · simp [specTryOrder, hp]
    · simpa [specTryOrder, hp] using List.ne_nil_of_mem hmemfil

/-- The fallback loop returns the first non-empty drain, or the final
exception carrying the last observed error. -/
theorem tryStrategies_characterize (reg : StrategyReg) (target : String) (maxPosts : Nat) :
    ∀ (order : List ScrapingStrategy) (lastError : Option AdapterError),
      tryStrategies reg target maxPosts order lastError =
        match firstNonEmptyAttempt reg target maxPosts order with
        | some ps => .ok ps
        | none =>
          .error (.allStrategiesFailed (lastErrorThrough reg target maxPosts order lastError))
  | [], _ => rfl
  | s :: rest, lastError => by
    simp only [tryStrategies, firstNonEmptyAttempt, lastErrorThrough]
    cases h : attemptOutcome reg target maxPosts s with
    | error e => exact tryStrategies_characterize reg target maxPosts rest (some e)
    | ok posts =>
      by_cases hp : posts.isEmpty
      · simpa [hp] using tryStrategies_characterize reg target maxPosts rest lastError
      · simp [hp]

/-- A first non-empty drain is in fact non-empty. -/
theorem firstNonEmptyAttempt_some_ne_nil (reg : StrategyReg) (target : String)
    (maxPosts : Nat) :
    ∀ (order : List ScrapingStrategy) (ps : List Post),
      firstNonEmptyAttempt reg target maxPosts order = some ps → ps ≠ []
  | [], ps => by simp [firstNonEmptyAttempt]
  | s :: rest, ps => by
    simp only [firstNonEmptyAttempt]
    cases attemptOutcome reg target maxPosts s with
    | error e => exact firstNonEmptyAttempt_some_ne_nil reg target maxPosts rest ps
    | ok posts =>
      by_cases hp : posts.isEmpty
      · simpa [hp] using firstNonEmptyAttempt_some_ne_nil reg target maxPosts rest ps
      · simp only [hp, if_neg Bool.false_ne_true]
        intro h
        cases h
        simp [List.isEmpty_iff] at hp
        exact hp

theorem applyJobUpdate_job_id (j : JobRecord) (status : String) (u : JobUpdate) :
    (applyJobUpdate j status u).job_id = j.job_id := rfl

theorem find_map_update (jobs : List JobRecord) (jobId status : String) (u : JobUpdate) :
    ((jobs.map fun j => if j.job_id = jobId then applyJobUpdate j status u else j).find?
        fun j => decide (j.job_id = jobId))
      = (jobs.find? fun j => decide (j.job_id = jobId)).map
          fun j => applyJobUpdate j status u := by
  induction jobs with
  | nil => rfl
  | cons j rest ih =>
    by_cases h : j.job_id = jobId
    · simp [List.find?_cons, h, applyJobUpdate_job_id]
    · simp [List.find?_cons, h, ih]

/-- `update_job_status` rewrites exactly the targeted row of the jobs table
as seen through `get_job_status`. -/
theorem getJobRecord_update (db : DB) (jobId status : String) (u : JobUpdate) :
    getJobRecord (updateJobStatus db jobId status u) jobId
      = (getJobRecord db jobId).map fun j => applyJobUpdate j status u := by
  unfold getJobRecord updateJobStatus
  exact find_map_update db.jobs jobId status u

theorem updateJobStatus_posts (db : DB) (jobId status : String) (u : JobUpdate) :
    (updateJobStatus db jobId status u).posts = db.posts := rfl

theorem savePost_ok_jobs (db db' : DB) (p : Post) (h : savePost db p = .ok db') :
    db'.jobs = db.jobs := by
  unfold savePost at h
  by_cases hmem : p.id ∈ db.postIds
  · simp [hmem] at h
  · simp only [hmem, if_neg, not_false_iff, if_false] at h
    cases h
    rfl

theorem saveCommentsLoop_jobs :
    ∀ (comments : List Post) (db : DB) (count : Nat) (errs : List String),
      (saveCommentsLoop comments db count errs).1.jobs = db.jobs
  | [], _, _, _ => rfl
  | c :: rest, db, count, errs => by
    simp only [saveCommentsLoop]
    cases h : savePost db c with
    | ok db' =>
      rw [saveCommentsLoop_jobs rest db' (count + 1) errs]
      exact savePost_ok_jobs db db' c h
    | error e => exact saveCommentsLoop_jobs rest db count _

/-- Processing a post touches only the posts table. -/
theorem processPost_jobs (ad : Adapter) (job : JobRecord) (p : Post) (acc : LoopAcc) :
    (processPost ad job p acc).db.jobs = acc.db.jobs := by
  unfold processPost
  by_cases hk : (!job.keywords.isEmpty && !matchesKeywords p.content job.keywords) = true
  · simp [hk]
  · simp only [hk, if_neg, Bool.not_eq_true, if_false]
    cases h : savePost acc.db p with
    | error e => simp
    | ok db1 =>
      have hj : db1.jobs = acc.db.jobs := savePost_ok_jobs acc.db db1 p h
      by_cases hc : job.include_comments
      · simp only [hc, if_true]
        cases hr : (ad.scrapeComments p.id 100).raised <;>
          simp [saveCommentsLoop_jobs, hj]
      · simp [hc, hj]

theorem processPosts_jobs (ad : Adapter) (job : JobRecord) :
    ∀ (ps : List Post) (acc : LoopAcc),
      (processPosts ad job ps acc).db.jobs = acc.db.jobs
  | [], _ => rfl
  | p :: rest, acc => by
    rw [processPosts, processPosts_jobs ad job rest (processPost ad job p acc),
      processPost_jobs]

/-- Two databases with the same jobs table agree on `get_job_status`. -/
theorem getJobRecord_congr (db db' : DB) (jobId : String) (h : db'.jobs = db.jobs) :
    getJobRecord db' jobId = getJobRecord db jobId := by
  unfold getJobRecord
  rw [h]

/-- The state-threaded fallback loop returns the state it was given. -/
theorem tryStrategiesSt_eq (st : ManagerState) (platform : Platform) (target : String)
    (maxPosts : Nat) (reg : StrategyReg)
    (h : lookupPlatform st.strategies platform = some reg) :
    ∀ (order : List ScrapingStrategy) (lastError : Option AdapterError),
      tryStrategiesSt st platform target maxPosts order lastError
        = (st, tryStrategies reg target maxPosts order lastError)
  | [], _ => rfl
  | s :: rest, lastError => by
    simp only [tryStrategiesSt, tryStrategies, h]
    cases attemptOutcome reg target maxPosts s with
    | error e => exact tryStrategiesSt_eq st platform target maxPosts reg h rest (some e)
    | ok posts =>
      by_cases hp : posts.isEmpty
      · simpa [hp] using tryStrategiesSt_eq st platform target maxPosts reg h rest lastError
      · simp [hp]

/-- The state-threaded method equals the pure function, paired with the
untouched state. -/
theorem scrapeWithFallbackSt_eq (st : ManagerState) (platform : Platform)
    (target : String) (maxPosts : Nat) (preferred : Option ScrapingStrategy) :
    scrapeWithFallbackSt st platform target maxPosts preferred
      = (st, scrapeWithFallback st.strategies platform target maxPosts preferred) := by
  unfold scrapeWithFallbackSt scrapeWithFallback
  cases h : lookupPlatform st.strategies platform with
  | none => rfl
  | some reg =>
    simp only []
    by_cases he : (reg.map (·.1)).isEmpty
    · simp [he]
    · simp only [he, if_neg, Bool.not_eq_true, if_false]
      by_cases ht : (strategiesToTry (reg.map (·.1)) preferred).isEmpty
      · simp [ht]
      · simpa [ht] using
          tryStrategiesSt_eq st platform target maxPosts reg h
            (strategiesToTry (reg.map (·.1)) preferred) none

theorem postIds_append (db : DB) (p : Post) :
    ({ db with posts := db.posts ++ [p] } : DB).postIds = db.postIds ++ [p.id] := by
  simp [DB.postIds]

/--
The post-processing loop under a non-empty keyword list, no comment expansion
and cleanly insertable ids: exactly the keyword-matching posts are appended to
the store, `posts_scraped` counts exactly them, and nothing is added to the
error list.
-/
theorem processPosts_keyword_filter (ad : Adapter) (job : JobRecord)
    (hic : job.include_comments = false) (hkw : job.keywords ≠ []) :
    ∀ (ys : List Post) (acc : LoopAcc),
      (ys.map Post.id).Nodup →
      (∀ p ∈ ys, p.id ∉ acc.db.postIds) →
      processPosts ad job ys acc =
        { db := { acc.db with
            posts := acc.db.posts
              ++ ys.filter fun p => matchesKeywords p.content job.keywords }
          postsScraped := acc.postsScraped
            + (ys.filter fun p => matchesKeywords p.content job.keywords).length
          commentsScraped := acc.commentsScraped
          errors := acc.errors }
  | [], acc => by
    intro _ _
    have h0 : processPosts ad job [] acc = acc := rfl
    rw [h0]
    cases acc with
    | mk d ps cs es => cases d; simp
  | p :: rest, acc => by
    intro hnodup hfresh
    have hkb : job.keywords.isEmpty = false := by
      cases hk : job.keywords.isEmpty
      · rfl
      · exact absurd (List.isEmpty_iff.mp hk) hkw
    rw [processPosts]
    cases hm : matchesKeywords p.content job.keywords with
    | false =>
      have hdrop : processPost ad job p acc = acc := by
        unfold processPost
        simp [hkb, hm]
      rw [hdrop]
      have hrest :=
        processPosts_keyword_filter ad job hic hkw rest acc
          (by simpa using hnodup.of_cons)
          (fun q hq => hfresh q (List.mem_cons_of_mem p hq))
      rw [hrest]
      simp [List.filter_cons, hm]
    | true =>
      have hsave : savePost acc.db p = .ok { acc.db with posts := acc.db.posts ++ [p] } := by
        unfold savePost
        simp [hfresh p (List.mem_cons_self p rest)]
      have hkeep : processPost ad job p acc =
          { acc with
            db := { acc.db with posts := acc.db.posts ++ [p] }
            postsScraped := acc.postsScraped + 1 } := by
        unfold processPost
        simp [hkb, hm, hsave, hic]
      rw [hkeep]
      have hfresh' : ∀ q ∈ rest,
          q.id ∉ ({ acc.db with posts := acc.db.posts ++ [p] } : DB).postIds := by
        intro q hq
        rw [postIds_append]
        intro hmem
        rcases List.mem_append.mp hmem with h1 | h1
        · exact hfresh q (List.mem_cons_of_mem p hq) h1
        · have hne : q.id ≠ p.id := by
            have hnd := hnodup
            rw [List.map_cons, List.nodup_cons] at hnd
            intro heq
            exact hnd.1 (heq ▸ List.mem_map_of_mem Post.id hq)
          exact hne (List.mem_singleton.mp h1)
      have hrest :=
        processPosts_keyword_filter ad job hic hkw rest
          { acc with
            db := { acc.db with posts := acc.db.posts ++ [p] }
            postsScraped := acc.postsScraped + 1 }
          (by simpa using hnodup.of_cons) hfresh'
      rw [hrest]
      simp [List.filter_cons, hm, List.append_assoc, LoopAcc.mk.injEq, DB.mk.injEq]
      omega

theorem applyJobUpdate_status (j : JobRecord) (status : String) (u : JobUpdate) :
    (applyJobUpdate j status u).status = status := rfl

theorem contains_append_self (l : List String) (a : String) :
    (l ++ [a]).contains a = true := by
  induction l with
  | nil => simp [List.contains_cons]
  | cons x xs ih => simp [List.contains_cons, ih]

theorem isActive_removeActive (st : ManagerState) (jobId : String) :
    isActive (removeActive st jobId) jobId = false := by
  unfold isActive removeActive
  simp [List.contains, List.elem_eq_mem, List.mem_filter]

/-- After a full `run_scraping_job`, a job that was present in the store is
still present and its status is one of the two terminal values the task body
writes. -/
theorem runScrapingJob_record (ad : Adapter) (job : JobRecord) (startT endT : Nat)
    (db : DB) (j : JobRecord) (hj : getJobRecord db job.job_id = some j) :
    ∃ r : JobRecord,
      getJobRecord (runScrapingJob ad job startT endT db).1 job.job_id = some r
      ∧ (r.status = "completed" ∨ r.status = "failed") := by
  unfold runScrapingJob
  cases hr : (ad.scrapePosts job.target job.max_posts).raised with
  | none =>
    simp only [hr]
    rw [getJobRecord_update,
      getJobRecord_congr _ _ _ (processPosts_jobs ad job _ _),
      getJobRecord_update, hj]
    exact ⟨_, rfl, Or.inl rfl⟩
  | some e =>
    simp only [hr]
    rw [getJobRecord_update,
      getJobRecord_congr _ _ _ (processPosts_jobs ad job _ _),
      getJobRecord_update, hj]
    exact ⟨_, rfl, Or.inr rfl⟩

/-- The search fallback loop never produces the no-capable-scrapers error
(that error is raised before the loop). -/
theorem trySearchStrategies_ne_noSearch (reg : StrategyReg) (query : String)
    (maxPosts : Nat) :
    ∀ (order : List ScrapingStrategy) (lastError : Option AdapterError),
      trySearchStrategies reg query maxPosts order lastError
        ≠ .error .noSearchCapableScrapers
  | [], lastError => by simp [trySearchStrategies]
  | s :: rest, lastError => by
    simp only [trySearchStrategies]
    cases attemptSearchOutcome reg query maxPosts s with
    | error e => exact trySearchStrategies_ne_noSearch reg query maxPosts rest (some e)
    | ok posts =>
      by_cases hp : posts.isEmpty
      · simpa [hp] using trySearchStrategies_ne_noSearch reg query maxPosts rest lastError
      · simp [hp]

/-!
## Claim theorems
-/

/--
C2: for every set of available strategies and every optional preferred
strategy, `scrape_with_fallback` computes the try-order as: the preferred
strategy first when it is available, followed by the remaining available
strategies in the fixed default order [WEB, FEED, API] excluding the preferred
one; otherwise the fixed default order filtered to availability.
-/
theorem c2_try_order (avail : List ScrapingStrategy) (preferred : Option ScrapingStrategy) :
    strategiesToTry avail preferred = specTryOrder avail preferred :=
  strategiesToTry_eq_filter avail preferred

/--
C10: a call to `scrape_with_fallback` — whether it returns posts or raises —
leaves the manager's shared mutable state unchanged: `self.strategies` and
`self.active_jobs` are identical before and after the call, and the value
produced is the pure function of the (unchanged) registry.
-/
theorem c10_scrape_with_fallback_frame (st : ManagerState) (platform : Platform)
    (target : String) (maxPosts : Nat) (preferred : Option ScrapingStrategy) :
    (scrapeWithFallbackSt st platform target maxPosts preferred).1.strategies
        = st.strategies
    ∧ (scrapeWithFallbackSt st platform target maxPosts preferred).1.active_jobs
        = st.active_jobs
    ∧ (scrapeWithFallbackSt st platform target maxPosts preferred).2
        = scrapeWithFallback st.strategies platform target maxPosts preferred := by
  rw [scrapeWithFallbackSt_eq]
  exact ⟨rfl, rfl, rfl⟩

/--
C8 counterexample: `save_post` is a plain INSERT on the primary key, so saving
the same post twice leaves one stored record but the second save raises an
integrity error — it is not an upsert, refuting "not two records and not an
error".
-/
theorem c8_counterexample :
    savePost { posts := [], jobs := [] } c8Post = .ok { posts := [c8Post], jobs := [] }
    ∧ savePost { posts := [c8Post], jobs := [] } c8Post = .error .integrityError := by
  constructor <;> rfl

/--
C8 amended: persisting a post whose id is already stored fails with an
integrity error (keeping the single existing record); persisting a fresh id
appends exactly one record.  Saving the same underlying item twice therefore
yields one logical record plus an error on the second save, not upsert
semantics.
-/
theorem c8_save_post_insert_semantics (db : DB) (p : Post) :
    (p.id ∈ db.postIds → savePost db p = .error .integrityError)
    ∧ (p.id ∉ db.postIds → savePost db p = .ok { db with posts := db.posts ++ [p] }) := by
  constructor <;> intro h <;> simp [savePost, h]

theorem c8_witness :
    savePost { posts := [pRust], jobs := [] } pRust = .error .integrityError :=
  (c8_save_post_insert_semantics { posts := [pRust], jobs := [] } pRust).1 (by decide)

/--
C6 counterexample: a "not found" failure surfaces as
`aiohttp.ClientResponseError(404)`, a subclass of `aiohttp.ClientError`, which
the tenacity predicate `retry_if_exception_type((ClientError, TimeoutError))`
treats as retryable — so an operation that always fails with 404 is attempted
3 times, refuting "exactly 1 attempt is performed" for such business errors.
-/
theorem c6_counterexample :
    makeRequestRetry (fun _ => (.error (.clientResponseError 404) : Except AdapterError Nat))
        = .retryExhausted (.clientResponseError 404) 3
    ∧ (makeRequestRetry
        (fun _ => (.error (.clientResponseError 404) : Except AdapterError Nat))).attemptsUsed
        ≠ 1 := by
  constructor
  · rfl
  · decide

/--
C6 amended: the retry wrapper classifies by exception *type* — any
`aiohttp.ClientError` (including HTTP-status errors like 404/401 raised by
`raise_for_status`) or `asyncio.TimeoutError` is retried up to 3 attempts with
exponential backoff; only errors outside these types propagate after exactly
1 attempt; an operation failing twice retryably and then succeeding returns
the success value after exactly 3 attempts; every call performs between 1 and
3 attempts.
-/
theorem c6_retry_classification :
    (∀ (op : Nat → Except AdapterError Nat) (e : AdapterError),
      isRetryableError e = false → op 1 = .error e →
      makeRequestRetry op = .raised e 1)
    ∧ (∀ (op : Nat → Except AdapterError Nat) (e : AdapterError),
      isRetryableError e = true → (∀ n, op n = .error e) →
      makeRequestRetry op = .retryExhausted e 3)
    ∧ (∀ (op : Nat → Except AdapterError Nat) (e1 e2 : AdapterError) (v : Nat),
      isRetryableError e1 = true → isRetryableError e2 = true →
      op 1 = .error e1 → op 2 = .error e2 → op 3 = .ok v →
      makeRequestRetry op = .ok v 3)
    ∧ (∀ op : Nat → Except AdapterError Nat,
      1 ≤ (makeRequestRetry op).attemptsUsed
      ∧ (makeRequestRetry op).attemptsUsed ≤ 3) := by
  refine ⟨?_, ?_, ?_, ?_⟩
  · intro op e hre h1
    simp [makeRequestRetry, retryGo, h1, hre]
  · intro op e hre h
    simp [makeRequestRetry, retryGo, h 1, h 2, h 3, hre]
  · intro op e1 e2 v hre1 hre2 h1 h2 h3
    simp [makeRequestRetry, retryGo, h1, h2, h3, hre1, hre2]
  · intro op
    simp only [makeRequestRetry, retryGo]
    cases h1 : op 1 with
    | ok v => simp [RetryOutcome.attemptsUsed]
    | error e1 =>
      cases hr1 : isRetryableError e1 with
      | false => simp [hr1, RetryOutcome.attemptsUsed]
      | true =>
        simp only [hr1, if_true]
        cases h2 : op 2 with
        | ok v => simp [RetryOutcome.attemptsUsed]
        | error e2 =>
          cases hr2 : isRetryableError e2 with
          | false => simp [hr2, RetryOutcome.attemptsUsed]
          | true =>
            simp only [hr2, if_true]
            cases h3 : op 3 with
            | ok v => simp [RetryOutcome.attemptsUsed]
            | error e3 =>
              cases hr3 : isRetryableError e3 <;> simp [hr3, RetryOutcome.attemptsUsed]

theorem c6_witness :
    makeRequestRetry
        (fun n => if 3 ≤ n then (.ok 7 : Except AdapterError Nat)
                  else .error .timeoutError)
      = .ok 7 3 :=
  c6_retry_classification.2.2.1
    (fun n => if 3 ≤ n then (.ok 7 : Except AdapterError Nat) else .error .timeoutError)
    .timeoutError .timeoutError 7 rfl rfl rfl rfl rfl

/--
C3 counterexample: the effective `create_job` (the later of the two
definitions in the class body, which shadows the earlier auto-starting one)
persists the pending job and returns its id while leaving the manager state —
in particular the active-job table — exactly as it was: no background task is
created or registered before `create_job` returns, refuting the claim.
-/
theorem c3_counterexample :
    createJob initManager { posts := [], jobs := [] } "j1" Platform.reddit "rust" 10
        false none
      = .ok ("j1", initManager,
          { posts := []
            jobs := [{ job_id := "j1", platform := Platform.reddit, target := "rust",
                       max_posts := 10, include_comments := false, keywords := [] }] })
    ∧ initManager.active_jobs = [] := by
  constructor <;> rfl

/--
C3 amended: `create_job` allocates the job in status `pending` under the
given freshly generated id, persists it via `save_job`, and returns the id
with the manager state (including the active-job table) unchanged; no
background task is started — execution is requested separately through
`start_job`.
-/
theorem c3_create_job_persists_only (st : ManagerState) (db : DB) (jobId : String)
    (platform : Platform) (target : String) (maxPosts : Nat) (ic : Bool)
    (kw : Option (List String)) (hfresh : jobId ∉ db.jobIds) :
    createJob st db jobId platform target maxPosts ic kw
      = .ok (jobId, st,
          { db with jobs := db.jobs ++
              [{ job_id := jobId, platform := platform, target := target,
                 max_posts := maxPosts, include_comments := ic,
                 keywords := kw.getD [] }] }) := by
  unfold createJob saveJob
  simp [hfresh]

theorem c3_witness :
    createJob initManager { posts := [], jobs := [] } "j3" Platform.reddit "news" 7
        true (some ["a"])
      = .ok ("j3", initManager,
          { posts := []
            jobs := [{ job_id := "j3", platform := Platform.reddit, target := "news",
                       max_posts := 7, include_comments := true, keywords := ["a"] }] }) := by
  have h := c3_create_job_persists_only initManager { posts := [], jobs := [] } "j3"
    Platform.reddit "news" 7 true (some ["a"]) (by decide)
  simpa using h

/--
C1: `scrape_with_fallback` either returns a non-empty list or raises.  It
never returns an empty list; with zero available adapters it raises one of the
two no-adapters `ValueError`s; and with adapters present, it drains each
strategy of the try-order in order and returns the first drained list holding
at least one post, recording a raising attempt's error and continuing, and
raises the all-strategies-failed exception carrying the last observed error
when the whole try-order is exhausted without a post.  The hypothesis that
every available strategy lies in [WEB, FEED, API] holds of every registry the
manager builds, since `_init_reddit_scrapers` registers only those three keys.
-/
theorem c1_fallback_contract (strategies : StratMap) (platform : Platform)
    (target : String) (maxPosts : Nat) (preferred : Option ScrapingStrategy)
    (hsub : ∀ s ∈ availableStrategies strategies platform, s ∈ defaultStrategyOrder) :
    (∀ ps, scrapeWithFallback strategies platform target maxPosts preferred = .ok ps →
      ps ≠ [])
    ∧ (availableStrategies strategies platform = [] →
        scrapeWithFallback strategies platform target maxPosts preferred
            = .error .noScrapersForPlatform
        ∨ scrapeWithFallback strategies platform target maxPosts preferred
            = .error .noWorkingScrapers)
    ∧ (∀ reg, lookupPlatform strategies platform = some reg → reg ≠ [] →
        scrapeWithFallback strategies platform target maxPosts preferred =
          match firstNonEmptyAttempt reg target maxPosts
              (strategiesToTry (reg.map (·.1)) preferred) with
          | some ps => .ok ps
          | none => .error (.allStrategiesFailed
              (lastErrorThrough reg target maxPosts
                (strategiesToTry (reg.map (·.1)) preferred) none))) := by
  have hmain : ∀ reg, lookupPlatform strategies platform = some reg → reg ≠ [] →
      scrapeWithFallback strategies platform target maxPosts preferred =
        match firstNonEmptyAttempt reg target maxPosts
            (strategiesToTry (reg.map (·.1)) preferred) with
        | some ps => .ok ps
        | none => .error (.allStrategiesFailed
            (lastErrorThrough reg target maxPosts
              (strategiesToTry (reg.map (·.1)) preferred) none)) := by
    intro reg hreg hrne
    have havail : availableStrategies strategies platform = reg.map (·.1) := by
      simp [availableStrategies, hreg]
    have hae : reg.map (·.1) ≠ [] := fun h => hrne (List.map_eq_nil_iff.mp h)
    have htne : strategiesToTry (reg.map (·.1)) preferred ≠ [] :=
      strategiesToTry_ne_nil _ _ (havail ▸ hsub) hae
    have h1 : (reg.map (·.1)).isEmpty = false := by
      cases he : (reg.map (·.1)).isEmpty
      · rfl
      · exact absurd (List.isEmpty_iff.mp he) hae
    have h2 : (strategiesToTry (reg.map (·.1)) preferred).isEmpty = false := by
      cases ht : (strategiesToTry (reg.map (·.1)) preferred).isEmpty
      · rfl
      · exact absurd (List.isEmpty_iff.mp ht) htne
    unfold scrapeWithFallback
    rw [hreg]
    simp only [h1, h2, Bool.false_eq_true, if_false]
    exact tryStrategies_characterize reg target maxPosts _ none
  refine ⟨?_, ?_, hmain⟩
  · intro ps hps
    cases hreg : lookupPlatform strategies platform with
    | none => rw [scrapeWithFallback, hreg] at hps; cases hps
    | some reg =>
      by_cases hrne : reg = []
      · subst hrne
        rw [scrapeWithFallback, hreg] at hps
        simp at hps
      · rw [hmain reg hreg hrne] at hps
        cases hfe : firstNonEmptyAttempt reg target maxPosts
            (strategiesToTry (reg.map (·.1)) preferred) with
        | none => rw [hfe] at hps; cases hps
        | some qs =>
          rw [hfe] at hps
          cases hps
          exact firstNonEmptyAttempt_some_ne_nil reg target maxPosts _ ps hfe
  · intro hav
    cases hreg : lookupPlatform strategies platform with
    | none => left; rw [scrapeWithFallback, hreg]
    | some reg =>
      right
      have hnil : reg.map (·.1) = [] := by
        simpa [availableStrategies, hreg] using hav
      rw [scrapeWithFallback, hreg]
      simp [hnil]

theorem c1_witness :
    scrapeWithFallback webFeedStrategies Platform.reddit "r" 5 none = .ok [pRust] := by
  have h := (c1_fallback_contract webFeedStrategies Platform.reddit "r" 5 none
      (by decide)).2.2
    [(ScrapingStrategy.web, stubAdapter []), (ScrapingStrategy.feed, stubAdapter [pRust])]
    rfl (List.cons_ne_nil _ _)
  rw [h]
  rfl

/--
C5: if the job id is in the active table, `stop_job` cancels the task, awaits
the cancellation settling, removes the entry, marks the persisted job
`cancelled` with `completed_at` set, and returns true; if the job id is not in
the active table (unknown or already terminal), it returns false and leaves
both the manager state and the database — in particular any terminal job's
persisted record — untouched (the not-active path performs no raising
operation at all).
-/
theorem c5_stop_job (st : ManagerState) (db : DB) (jobId : String) (now : Nat) :
    (isActive st jobId = true →
      (stopJob st db jobId now).1 = true
      ∧ isActive (stopJob st db jobId now).2.1 jobId = false
      ∧ (stopJob st db jobId now).2.2
          = updateJobStatus db jobId "cancelled" { completed_at := some now }
      ∧ (∀ j, getJobRecord db jobId = some j →
          getJobRecord (stopJob st db jobId now).2.2 jobId
            = some { j with status := "cancelled", completed_at := some now }))
    ∧ (isActive st jobId = false → stopJob st db jobId now = (false, st, db)) := by
  constructor
  · intro h
    refine ⟨?_, ?_, ?_, ?_⟩
    · simp [stopJob, h]
    · simpa [stopJob, h] using isActive_removeActive st jobId
    · simp [stopJob, h]
    · intro j hj
      simp only [stopJob, h, if_true]
      rw [getJobRecord_update, hj]
      rfl
  · intro h
    simp [stopJob, h]

theorem c5_witness :
    (stopJob c5State c5DB "j5" 9).1 = true
    ∧ isActive (stopJob c5State c5DB "j5" 9).2.1 "j5" = false
    ∧ getJobRecord (stopJob c5State c5DB "j5" 9).2.2 "j5"
        = some { c5Job with status := "cancelled", completed_at := some 9 } := by
  have h := (c5_stop_job c5State c5DB "j5" 9).1 rfl
  exact ⟨h.1, h.2.1, h.2.2.2 c5Job rfl⟩

/--
C7: for a job run with a non-empty keyword list (and no comment expansion),
over a post generator that yields cleanly (fresh, pairwise-distinct ids and no
raise), a fetched post is persisted if and only if its content
case-insensitively contains at least one keyword as a substring (OR
semantics); non-matching posts are discarded without being counted as errors;
and the recorded `posts_scraped` equals the number of posts actually
persisted.
-/
theorem c7_keyword_filtering (ad : Adapter) (job : JobRecord) (startT endT : Nat)
    (db : DB)
    (hkw : job.keywords ≠ []) (hic : job.include_comments = false)
    (hgen : (ad.scrapePosts job.target job.max_posts).raised = none)
    (hnodup : ((ad.scrapePosts job.target job.max_posts).yields.map Post.id).Nodup)
    (hfresh : ∀ p ∈ (ad.scrapePosts job.target job.max_posts).yields,
        p.id ∉ db.postIds) :
    (runScrapingJob ad job startT endT db).1.posts
        = db.posts ++ (ad.scrapePosts job.target job.max_posts).yields.filter
            (fun p => matchesKeywords p.content job.keywords)
    ∧ (runScrapingJob ad job startT endT db).2.posts_scraped
        = ((ad.scrapePosts job.target job.max_posts).yields.filter
            (fun p => matchesKeywords p.content job.keywords)).length
    ∧ (runScrapingJob ad job startT endT db).2.errors = []
    ∧ (runScrapingJob ad job startT endT db).2.success = true := by
  have hfresh0 : ∀ p ∈ (ad.scrapePosts job.target job.max_posts).yields,
      p.id ∉ (updateJobStatus db job.job_id "running"
        { started_at := some startT }).postIds := by
    intro p hp
    have : (updateJobStatus db job.job_id "running"
        { started_at := some startT }).postIds = db.postIds := by
      unfold DB.postIds
      rw [updateJobStatus_posts]
    rw [this]
    exact hfresh p hp
  have hloop := processPosts_keyword_filter ad job hic hkw
    (ad.scrapePosts job.target job.max_posts).yields
    { db := updateJobStatus db job.job_id "running" { started_at := some startT }
      postsScraped := 0, commentsScraped := 0, errors := [] }
    hnodup hfresh0
  unfold runScrapingJob
  simp only [hgen, hloop, updateJobStatus_posts]
  simp

theorem c7_witness :
    (runScrapingJob c7Adapter c7Job 1 2 { posts := [], jobs := [] }).1.posts = [pRust]
    ∧ (runScrapingJob c7Adapter c7Job 1 2 { posts := [], jobs := [] }).2.posts_scraped = 1
    ∧ (runScrapingJob c7Adapter c7Job 1 2 { posts := [], jobs := [] }).2.errors = [] := by
  have h := c7_keyword_filtering c7Adapter c7Job 1 2 { posts := [], jobs := [] }
    (by decide) rfl rfl (by decide) (by decide)
  refine ⟨?_, ?_, h.2.2.1⟩
  · rw [h.1]; rfl
  · rw [h.2.1]; rfl

/--
C4: the active-table invariant does not hold of the code.  On the live path,
`start_job` reads `self.scrapers`, an attribute `__init__` never creates, so
any call that reaches the spawn step raises `AttributeError`; and even
granting the registration, the spawned task body `run_scraping_job` performs
the terminal `completed`/`failed` transition while never touching the
active-job table — no code on that path removes the entry, so
`get_job_status` still reports `is_running = true` for a job whose persisted
status is terminal.
-/
theorem c4_active_table_not_invariant (st : ManagerState) (ad : Adapter)
    (job : JobRecord) (startT endT : Nat) (db : DB)
    (hattr : st.scrapers = none)
    (hrec : ∃ j, getJobRecord db job.job_id = some j) :
    (isActive st job.job_id = false →
      startJob st db job.job_id = .error (.attributeError "scrapers"))
    ∧ isActive (startJobPathExecution st ad job startT endT db).1 job.job_id = true
    ∧ (∃ status isRun,
        getJobStatusView (startJobPathExecution st ad job startT endT db).1
            (startJobPathExecution st ad job startT endT db).2.1 job.job_id
          = some (status, isRun)
        ∧ (status = "completed" ∨ status = "failed")
        ∧ isRun = true) := by
  obtain ⟨j, hj⟩ := hrec
  have hst1 : (startJobPathExecution st ad job startT endT db).1
      = { st with active_jobs := st.active_jobs ++ [job.job_id] } := rfl
  have hdb1 : (startJobPathExecution st ad job startT endT db).2.1
      = (runScrapingJob ad job startT endT db).1 := rfl
  have hactive : isActive (startJobPathExecution st ad job startT endT db).1
      job.job_id = true := by
    rw [hst1]
    unfold isActive
    exact contains_append_self st.active_jobs job.job_id
  refine ⟨?_, hactive, ?_⟩
  · intro hin
    unfold startJob
    rw [hin]
    simp only [Bool.false_eq_true, if_false]
    rw [hj, hattr]
  · obtain ⟨r, hrr, hstat⟩ := runScrapingJob_record ad job startT endT db j hj
    refine ⟨r.status, true, ?_, hstat, rfl⟩
    unfold getJobStatusView
    rw [hdb1, hrr]
    simp [hactive]

theorem c4_witness :
    startJob initManager c4DB "j4" = .error (.attributeError "scrapers")
    ∧ isActive (startJobPathExecution initManager (stubAdapter []) c4Job 1 2 c4DB).1
        "j4" = true := by
  have h := c4_active_table_not_invariant initManager (stubAdapter []) c4Job 1 2 c4DB
    rfl ⟨c4Job, rfl⟩
  exact ⟨h.1 rfl, h.2.1⟩

/--
C9 counterexample: the search-capability filter is
`hasattr(scraper, 'scrape_search')`, and `RedditFeedScraper` *defines*
`scrape_search` (a generator that yields nothing) — so with only the Feed
adapter available, the call does not raise the no-search-capable error:
the Feed adapter IS selected, its empty search result exhausts the loop, and
the all-strategies-failed exception is raised instead.
-/
theorem c9_counterexample :
    searchCapableStrategies feedOnlyStrategies Platform.reddit = [ScrapingStrategy.feed]
    ∧ scrapeSearchWithFallback feedOnlyStrategies Platform.reddit "rust" 10 none
        = .error (.allStrategiesFailed none) := by
  constructor <;> rfl

/--
C9 amended: `scrape_search_with_fallback` filters the available strategies by
*presence of a `scrape_search` attribute*, not by a semantic search
capability; the Feed scraper defines the attribute (yielding an empty
sequence) and is therefore selected; the no-search-capable error is raised
exactly when no available adapter defines the attribute.
-/
theorem c9_search_filter_is_hasattr (strategies : StratMap) (platform : Platform)
    (query : String) (maxPosts : Nat) (preferred : Option ScrapingStrategy)
    (reg : StrategyReg) (hreg : lookupPlatform strategies platform = some reg) :
    searchCapableStrategies strategies platform
        = (reg.map (·.1)).filter (fun s => hasSearchAttr reg s)
    ∧ (∀ fetch, (redditFeedScraper fetch).hasScrapeSearch = true
        ∧ ((redditFeedScraper fetch).scrapeSearch query maxPosts).yields = [])
    ∧ (searchCapableStrategies strategies platform = []
        ↔ scrapeSearchWithFallback strategies platform query maxPosts preferred
            = .error .noSearchCapableScrapers) := by
  have hcap : searchCapableStrategies strategies platform
      = (reg.map (·.1)).filter (fun s => hasSearchAttr reg s) := by
    simp [searchCapableStrategies, hreg]
  refine ⟨hcap, fun fetch => ⟨rfl, rfl⟩, ?_⟩
  constructor
  · intro h
    have hnil : (reg.map (·.1)).filter (fun s => hasSearchAttr reg s) = [] := by
      rw [← hcap]; exact h
    unfold scrapeSearchWithFallback
    rw [hreg]
    simp [hnil]
  · intro h
    by_contra hne
    have hnil : ((reg.map (·.1)).filter (fun s => hasSearchAttr reg s)).isEmpty
        = false := by
      cases he : ((reg.map (·.1)).filter (fun s => hasSearchAttr reg s)).isEmpty
      · rfl
      · exact absurd (hcap.trans (List.isEmpty_iff.mp he)) hne
    unfold scrapeSearchWithFallback at h
    rw [hreg] at h
    simp only [hnil, Bool.false_eq_true, if_false] at h
    exact trySearchStrategies_ne_noSearch reg query maxPosts _ none h

theorem c9_witness :
    scrapeSearchWithFallback webOnlyNoSearch Platform.reddit "q" 5 none
      = .error .noSearchCapableScrapers :=
  ((c9_search_filter_is_hasattr webOnlyNoSearch Platform.reddit "q" 5 none
      [(ScrapingStrategy.web, stubAdapter [])] rfl).2.2).mp rfl

end Scrapper
